import Mathlib

/-!
Verification of the run-on-output monitoring tool: a shallow embedding of
its pattern matcher, command executor, output buffer and process-supervisor
exit handling, with theorems about the behaviour of each component.

JavaScript values that matter to the control flow are modelled explicitly:
a possibly-undefined string argument is an Option String (none = undefined),
a child exit status is a JSExitVal (a number, null, or undefined), a compiled
regular expression is carried as its source text together with its test
function, and a thrown TypeError is a dedicated result constructor.
-/

namespace RunOnOutput

/-- Substring test at the head: does the needle occur as a prefix of the hay? -/
def matchesAt : List Char → List Char → Bool
  | [], _ => true
  | _ :: _, [] => false
  | c :: cs, d :: ds => c == d && matchesAt cs ds

/-- Does the needle occur as a contiguous substring of the hay? -/
def hasSubstr (needle : List Char) : List Char → Bool
  | [] => matchesAt needle []
  | c :: t => matchesAt needle (c :: t) || hasSubstr needle t

/-- Model of the JavaScript String.prototype.includes test. -/
def jsIncludes (hay needle : String) : Bool :=
  hasSubstr needle.data hay.data

/-- Model of JavaScript String(x) applied to a string-or-undefined value. -/
def jsToString : Option String → String
  | none => "undefined"
  | some s => s

/-- Model of JavaScript String.prototype.toLowerCase (ASCII range),
character by character. -/
def jsToLower (s : String) : String := ⟨s.data.map Char.toLower⟩

/-- A configured pattern, from createPatternsFromValues: either a plain
string (stored lowercased) or a regex, carried as its source text together
with its test function (the behaviour of RegExp.prototype.test). -/
inductive Pattern where
  | str (value : String)
  | regex (source : String) (test : String → Bool)

/-- The identity key used to record a pattern into the found-set:
the string value itself, or the regex source text. -/
def Pattern.key : Pattern → String
  | .str v => v
  | .regex s _ => s

/-- Does a single pattern match a (defined) text chunk, as tested inside
checkPatterns: case-insensitive containment for strings, the regex test
for regexes. -/
def matchesChunk (p : Pattern) (o : String) : Bool :=
  match p with
  | .str v => jsIncludes (jsToLower o) v
  | .regex _ t => t o

/-- The closure state of createPatternMatcher: the foundPatterns set
(modelled as a duplicate-free list of identity keys in insertion order)
and the allPatternsFound flag. -/
structure MatcherState where
  foundPatterns : List String
  allPatternsFound : Bool
deriving Repr, DecidableEq

/-- State of a freshly created matcher. -/
def initialMatcherState : MatcherState := ⟨[], false⟩

/-- Model of Set.prototype.add on the found-set of identity keys. -/
def insertKey (found : List String) (k : String) : List String :=
  if k ∈ found then found else found ++ [k]

/-- Result of the pattern loop inside checkPatterns: the updated found-set,
or a thrown TypeError (with the mutations made before the throw, since the
closure set persists). -/
inductive LoopRes where
  | ok (found : List String)
  | threw (found : List String)
deriving Repr, DecidableEq

/-- The for-loop of checkPatterns over config.patterns. A string pattern
lowercases the chunk, which throws when the chunk is undefined; a regex
pattern tests the chunk after JavaScript string coercion (undefined becomes
the text "undefined"). A match records the identity key into the found-set. -/
def runPatternLoop (output : Option String) : List Pattern → List String → LoopRes
  | [], found => .ok found
  | Pattern.str v :: ps, found =>
    match output with
    | none => .threw found
    | some o =>
      runPatternLoop output ps (if jsIncludes (jsToLower o) v then insertKey found v else found)
  | Pattern.regex s t :: ps, found =>
    runPatternLoop output ps (if t (jsToString output) then insertKey found s else found)

/-- Result of one checkPatterns call: the returned boolean and the updated
closure state, or a thrown TypeError (state kept as mutated so far). -/
inductive CheckResult where
  | ok (ret : Bool) (st : MatcherState)
  | threw (st : MatcherState)
deriving Repr, DecidableEq

/-- checkPatterns from createPatternMatcher: short-circuits to false once
allPatternsFound is set; otherwise runs the pattern loop, then flips the
flag and returns true exactly when the found-set size reaches the configured
pattern count. -/
def checkPatterns (ps : List Pattern) (st : MatcherState) (output : Option String) :
    CheckResult :=
  if st.allPatternsFound then .ok false st
  else
    match runPatternLoop output ps st.foundPatterns with
    | .threw found => .threw ⟨found, st.allPatternsFound⟩
    | .ok found =>
      if found.length == ps.length && !st.allPatternsFound then
        .ok true ⟨found, true⟩
      else
        .ok false ⟨found, st.allPatternsFound⟩

/-- Feed one defined chunk to the matcher (the supervisor only ever passes
defined strings; the throw branch is unreachable there and mapped to false). -/
def feedChunk (ps : List Pattern) (st : MatcherState) (c : String) : Bool × MatcherState :=
  match checkPatterns ps st (some c) with
  | .ok r st2 => (r, st2)
  | .threw st2 => (false, st2)

/-- Feed a sequence of defined chunks, collecting the returned booleans. -/
def feedMany (ps : List Pattern) (st : MatcherState) : List String → List Bool × MatcherState
  | [] => ([], st)
  | c :: cs =>
    let r := feedChunk ps st c
    let rest := feedMany ps r.2 cs
    (r.1 :: rest.1, rest.2)

/-- A whole monitoring session of the matcher, from the fresh state. -/
def matcherRun (ps : List Pattern) (cs : List String) : List Bool × MatcherState :=
  feedMany ps initialMatcherState cs

/-- A JavaScript child-process exit status: a number, null, or undefined. -/
inductive JSExitVal where
  | num (n : Int)
  | null
  | undefined
deriving Repr, DecidableEq

/-- Model of the strict comparison childExitCode !== 0. -/
def jsStrictNeqZero : JSExitVal → Bool
  | .num n => n != 0
  | _ => true

/-- Model of the strict comparison childExitCode === undefined. -/
def jsIsUndefined : JSExitVal → Bool
  | .undefined => true
  | _ => false

/-- determineExitCode: 1 when the child exit status is strictly neither 0
nor undefined, otherwise 0. -/
def determineExitCode (c : JSExitVal) : Nat :=
  if jsStrictNeqZero c && !jsIsUndefined c then 1 else 0

/-- The result of the underlying spawn of a child process: the process
either failed to start (the error event, carrying the error message) or ran
and exited with a status, having produced output and error text. -/
inductive SpawnOutcome where
  | spawnError (message : String)
  | exited (code : JSExitVal) (stdout stderr : String)
deriving Repr, DecidableEq

/-- What executeCommand asks the platform to spawn: the first
whitespace-separated part of the command string as the executable, the
remaining parts followed by the extra arguments, through a shell, with or
without output capture. -/
structure SpawnRequest where
  executable : String
  args : List String
  shell : Bool
  captureOutput : Bool
deriving Repr, DecidableEq

/-- Template-literal rendering of a child exit status. -/
def jsExitValToString : JSExitVal → String
  | .num n => toString n
  | .null => "null"
  | .undefined => "undefined"

/-- executeCommand: splits the command on spaces, spawns through the shell,
resolves with the captured output on exit status 0 and rejects otherwise;
returns the spawn request, the settled promise, and the console error lines
it printed itself (only under captureOutput). -/
def executeCommand (command : String) (args : List String) (captureOutput : Bool)
    (outcome : SpawnOutcome) :
    SpawnRequest × Except String (String × String) × List String :=
  let parts := command.splitOn " "
  let req : SpawnRequest := ⟨parts.headD "", parts.tail ++ args, true, captureOutput⟩
  match outcome with
  | .spawnError msg =>
    (req, .error msg, if captureOutput then ["Command failed: " ++ msg] else [])
  | .exited code out err =>
    if code = .num 0 then
      (req, .ok (out, err), [])
    else
      (req, .error ("Command failed: exit code " ++ jsExitValToString code),
        if captureOutput then
          ["Command failed: exit code " ++ jsExitValToString code]
        else [])

/-- The four append-only buffers of createOutputBuffer. -/
structure Buffers where
  outputBuffer : String
  errorBuffer : String
  actionOutputBuffer : String
  actionErrorBuffer : String
deriving Repr, DecidableEq

/-- Buffers of a fresh session. -/
def emptyBuffers : Buffers := ⟨"", "", "", ""⟩

/-- appendOutput from createOutputBuffer. -/
def appendOutput (b : Buffers) (s : String) : Buffers :=
  { b with outputBuffer := b.outputBuffer ++ s }

/-- appendError from createOutputBuffer. -/
def appendError (b : Buffers) (s : String) : Buffers :=
  { b with errorBuffer := b.errorBuffer ++ s }

/-- addToOutput from createOutputBuffer (action-generated output). -/
def addToOutput (b : Buffers) (s : String) : Buffers :=
  { b with actionOutputBuffer := b.actionOutputBuffer ++ s }

/-- addToError from createOutputBuffer (action-generated error text). -/
def addToError (b : Buffers) (s : String) : Buffers :=
  { b with actionErrorBuffer := b.actionErrorBuffer ++ s }

/-- The action-relevant part of the parsed configuration. -/
structure Config where
  message : Option String
  runCommand : Option String
  npmScript : Option String

/-- Which configured actions ran, in order. -/
inductive ActionTag where
  | message
  | runCmd
  | npmScript
deriving Repr, DecidableEq

/-- The first if-block of executeActionsWhenPatternsFound: append the
configured message (plus newline) to the action-output buffer. -/
def messageStep (msgO : Option String) (b : Buffers) :
    Buffers × List String × List ActionTag :=
  match msgO with
  | some m => (addToOutput b (m ++ "\n"), [], [ActionTag.message])
  | none => (b, [], [])

/-- The second if-block: run the configured command through executeCommand
with output capture; on success add the captured non-empty output and error
text to the action buffers, on failure log and continue. -/
def runCommandStep (rcO : Option String) (outcome : SpawnOutcome) (b : Buffers) :
    Buffers × List String × List ActionTag :=
  match rcO with
  | some rc =>
    match executeCommand rc [] true outcome with
    | (_, .ok (out, err), lg) =>
      let bo := if out ≠ "" then addToOutput b out else b
      let be := if err ≠ "" then addToError bo err else bo
      (be, lg, [ActionTag.runCmd])
    | (_, .error msg, lg) =>
      (b, lg ++ ["Failed to execute run command: " ++ msg], [ActionTag.runCmd])
  | none => (b, [], [])

/-- The third if-block: run the configured npm script through the same
executor wrapped in the npm run -s invocation; same best-effort handling. -/
def npmScriptStep (scO : Option String) (outcome : SpawnOutcome) (b : Buffers) :
    Buffers × List String × List ActionTag :=
  match scO with
  | some script =>
    match executeCommand ("npm run -s " ++ script) [] true outcome with
    | (_, .ok (out, err), lg) =>
      let bo := if out ≠ "" then addToOutput b out else b
      let be := if err ≠ "" then addToError bo err else bo
      (be, lg, [ActionTag.npmScript])
    | (_, .error msg, lg) =>
      (b, lg ++ ["Failed to execute npm script: " ++ msg], [ActionTag.npmScript])
  | none => (b, [], [])

/-- executeActionsWhenPatternsFound: appends the configured message to the
action-output buffer, then runs the configured command, then the configured
npm script, both through executeCommand with output capture; a failed
executeCommand is logged (Failed to execute ...) and never stops the later
actions. Returns the updated buffers, the console error lines in order, and
the actions that ran in order. -/
def executeActions (cfg : Config) (runOutcome npmOutcome : SpawnOutcome)
    (b : Buffers) : Buffers × List String × List ActionTag :=
  let s1 := messageStep cfg.message b
  let s2 := runCommandStep cfg.runCommand runOutcome s1.1
  let s3 := npmScriptStep cfg.npmScript npmOutcome s2.1
  (s3.1, s1.2.1 ++ s2.2.1 ++ s3.2.1, s1.2.2 ++ s2.2.2 ++ s3.2.2)

/-- Result of a terminal supervisor step: the final buffers, the console
error lines, the actions that ran, the text written to the real stdout and
stderr at exit, and the process exit code. -/
structure ExitResult where
  buffers : Buffers
  logs : List String
  actions : List ActionTag
  stdoutWritten : String
  stderrWritten : String
  exitCode : Nat
deriving Repr, DecidableEq

/-- handleChildProcessError, the spawn-error path of run: appends the
failure message to the action-error buffer, then writes the primary output
and error buffers to the real streams and exits with status 1. -/
def handleChildProcessError (errorMessage : String) (b : Buffers) : ExitResult :=
  let b2 := addToError b ("Failed to start command: " ++ errorMessage ++ "\n")
  ⟨b2, [], [], b2.outputBuffer, b2.errorBuffer, 1⟩

/-- finalizeOutput: writes only the action-generated buffers (each only when
non-empty) to the real streams before exiting. -/
def finalizeOutput (b : Buffers) :
    String × String :=
  ((if b.actionOutputBuffer ≠ "" then b.actionOutputBuffer else ""),
   (if b.actionErrorBuffer ≠ "" then b.actionErrorBuffer else ""))

/-- The guard of the command-not-found special case in the exit handler:
code !== 0 && code !== undefined && (code === 127 || code === 1). -/
def commandNotFoundGuard (code : JSExitVal) : Bool :=
  jsStrictNeqZero code && !jsIsUndefined code &&
    (code == JSExitVal.num 127 || code == JSExitVal.num 1)

/-- The child exit handler of run: runs the configured actions when the
completion flag was raised, appends the command-not-found message when the
guard holds, computes the exit code from the child status, and flushes the
action buffers through finalizeOutput. -/
def runExitHandler (cfg : Config) (allPatternsFound : Bool)
    (runOutcome npmOutcome : SpawnOutcome) (code : JSExitVal) (b : Buffers) :
    ExitResult :=
  let s1 :=
    if allPatternsFound then executeActions cfg runOutcome npmOutcome b
    else (b, [], [])
  let b2 :=
    if commandNotFoundGuard code then
      addToError s1.1 "Failed to start command: Command not found\n"
    else s1.1
  let ec := determineExitCode code
  let fo := finalizeOutput b2
  ⟨b2, s1.2.1, s1.2.2, fo.1, fo.2, ec⟩

/-- Did the auxiliary command fail (spawn error or non-zero exit status)? -/
def spawnFails : SpawnOutcome → Bool
  | .spawnError _ => true
  | .exited c _ _ => !(c == JSExitVal.num 0)

/-- JavaScript truthiness of a string-or-undefined option value. -/
def jsTruthy : Option String → Bool
  | none => false
  | some s => s ≠ ""

/-- Model of the JavaScript expression a || b on option values
(an empty string is falsy). -/
def jsOrElse (a b : Option String) : Option String :=
  match a with
  | some s => if s = "" then b else some s
  | none => b

/-- Model of String.prototype.split on a comma: every comma starts a new
group, and the empty string yields one empty group. -/
def splitComma : List Char → List (List Char)
  | [] => [[]]
  | c :: rest =>
    match splitComma rest with
    | [] => [[c]]
    | g :: gs => if c = ',' then [] :: g :: gs else (c :: g) :: gs

/-- ASCII whitespace, for the trim model. -/
def isSpaceChar (c : Char) : Bool :=
  c = ' ' || c = '\t' || c = '\n' || c = '\r'

/-- Drop leading whitespace. -/
def dropLeadingWs : List Char → List Char
  | [] => []
  | c :: rest => if isSpaceChar c then dropLeadingWs rest else c :: rest

/-- Model of String.prototype.trim: strip whitespace from both ends. -/
def jsTrim (s : String) : String :=
  ⟨(dropLeadingWs (dropLeadingWs s.data).reverse).reverse⟩

/-- The metacharacters escaped by the literal-string fallback of
createPatternsFromValues. -/
def isRegexMeta (c : Char) : Bool :=
  c = '.' || c = '*' || c = '+' || c = '?' || c = '^' || c = '$' || c = '\x7b' ||
    c = '\x7d' || c = '(' || c = ')' || c = '|' || c = '[' || c = ']' || c = '\\'

/-- The replaceAll of the fallback: prepend a backslash to every
metacharacter. -/
def escapeChars : List Char → List Char
  | [] => []
  | c :: rest =>
    if isRegexMeta c then '\\' :: c :: escapeChars rest else c :: escapeChars rest

/-- Escape every regex metacharacter in a pattern source. -/
def escapeRegex (s : String) : String := ⟨escapeChars s.data⟩

/-- The behaviour of the compiled fallback regex: an all-escaped source with
the i flag matches exactly the case-insensitive occurrences of the original
literal text. -/
def literalCITest (pattern : String) (s : String) : Bool :=
  jsIncludes (jsToLower s) (jsToLower pattern)

/-- The warning printed when an invalid regex source is downgraded. -/
def warnMsg (p : String) : String :=
  "Warning: Invalid regex pattern \x27" ++ p ++ "\x27, treating as literal string"

/-- The regex branch of createPatternsFromValues, parameterized by the
regex engine: compile source is some test when new RegExp(source, i-flag)
succeeds and none when it throws a SyntaxError. A failed compile is retried
on the escaped source with a warning; that second compile is outside the
try, so its failure (never reached for a real engine) would be a hard
error. Returns the patterns and the warnings printed, in order. -/
def buildRegexPatterns (compile : String → Option (String → Bool)) :
    List String → Except String (List Pattern × List String)
  | [] => .ok ([], [])
  | p :: rest =>
    match compile p with
    | some t =>
      match buildRegexPatterns compile rest with
      | .ok (ps, ws) => .ok (Pattern.regex p t :: ps, ws)
      | .error e => .error e
    | none =>
      match compile (escapeRegex p) with
      | some t2 =>
        match buildRegexPatterns compile rest with
        | .ok (ps, ws) => .ok (Pattern.regex (escapeRegex p) t2 :: ps, warnMsg p :: ws)
        | .error e => .error e
      | none => .error "SyntaxError"

/-- createPatternsFromValues: split the raw option value on commas, trim
each piece; with the strings flavour build lowercased literal patterns, with
the patterns flavour compile each piece as a case-insensitive regex with the
literal fallback. A missing raw value (neither option truthy) is a
TypeError on split. -/
def createPatternsFromValues (compile : String → Option (String → Bool))
    (patternsValue stringsValue : Option String) :
    Except String (List Pattern × List String) :=
  let useStrings := jsTruthy stringsValue
  match jsOrElse patternsValue stringsValue with
  | none => .error "TypeError"
  | some rawStr =>
    let rawPatterns := (splitComma rawStr.data).map (fun l => jsTrim ⟨l⟩)
    if useStrings then
      .ok (rawPatterns.map (fun s => Pattern.str (jsToLower s)), [])
    else
      buildRegexPatterns compile rawPatterns

/-- A sample defective regex engine for concrete runs: fails exactly on
sources starting with an unclosed bracket character. -/
def badCompile : String → Option (String → Bool) :=
  fun s => if s.data.head? = some '[' then none else some (literalCITest s)

/-- The cumulative effect of the pattern loop on the found-set for a defined
chunk, as a total function. -/
def loopFound (o : String) : List Pattern → List String → List String
  | [], found => found
  | p :: ps, found =>
    loopFound o ps (if matchesChunk p o then insertKey found p.key else found)

/-- The session invariant relating the matcher state to the chunks fed so
far: the found-set is duplicate-free, holds exactly the identity keys of
patterns satisfied by some chunk seen so far, and the completion flag is
set exactly when the found-set size reaches the pattern count. -/
def MatchInv (ps : List Pattern) (cs : List String) (st : MatcherState) : Prop :=
  st.foundPatterns.Nodup ∧
  (∀ k, k ∈ st.foundPatterns ↔
    ∃ p ∈ ps, p.key = k ∧ ∃ c ∈ cs, matchesChunk p c = true) ∧
  (st.allPatternsFound = true ↔ st.foundPatterns.length = ps.length)

theorem runPatternLoop_some (o : String) (ps : List Pattern) (found : List String) :
    runPatternLoop (some o) ps found = .ok (loopFound o ps found) := by
  induction ps generalizing found with
  | nil => rfl
  | cons p ps ih =>
    cases p with
    | str v => simp [runPatternLoop, loopFound, matchesChunk, Pattern.key, ih]
    | regex s t => simp [runPatternLoop, loopFound, matchesChunk, Pattern.key, jsToString, ih]

theorem mem_insertKey (found : List String) (k k2 : String) :
    k2 ∈ insertKey found k ↔ k2 ∈ found ∨ k2 = k := by
  by_cases h : k ∈ found
  · simp only [insertKey, if_pos h]
    exact ⟨Or.inl, fun h2 => h2.elim id (fun he => he ▸ h)⟩
  · simp [insertKey, if_neg h]

theorem nodup_insertKey (found : List String) (k : String) (h : found.Nodup) :
    (insertKey found k).Nodup := by
  by_cases hk : k ∈ found
  · simpa [insertKey, hk] using h
  · simp [insertKey, hk, List.nodup_append, h]

theorem mem_loopFound (o : String) (ps : List Pattern) (found : List String) (k : String) :
    k ∈ loopFound o ps found ↔
      k ∈ found ∨ ∃ p ∈ ps, matchesChunk p o = true ∧ p.key = k := by
  induction ps generalizing found with
  | nil => simp [loopFound]
  | cons p ps ih =>
    simp only [loopFound]
    rw [ih]
    by_cases h : matchesChunk p o
    · rw [if_pos h, mem_insertKey]
      simp only [h, List.mem_cons]
      constructor
      · rintro ((hk | rfl) | ⟨q, hq, hm, hkey⟩)
        · exact Or.inl hk
        · exact Or.inr ⟨p, Or.inl rfl, h, rfl⟩
        · exact Or.inr ⟨q, Or.inr hq, hm, hkey⟩
      · rintro (hk | ⟨q, hq | hq, hm, hkey⟩)
        · exact Or.inl (Or.inl hk)
        · exact Or.inl (Or.inr (hq ▸ hkey.symm))
        · exact Or.inr ⟨q, hq, hm, hkey⟩
    · simp only [if_neg h]
      constructor
      · rintro (hk | ⟨q, hq, hm, hkey⟩)
        · exact Or.inl hk
        · exact Or.inr ⟨q, List.mem_cons_of_mem _ hq, hm, hkey⟩
      · rintro (hk | ⟨q, hq, hm, hkey⟩)
        · exact Or.inl hk
        · rcases List.mem_cons.mp hq with rfl | hq2
          · exact absurd hm (by simpa using h)
          · exact Or.inr ⟨q, hq2, hm, hkey⟩

theorem nodup_loopFound (o : String) (ps : List Pattern) (found : List String)
    (h : found.Nodup) : (loopFound o ps found).Nodup := by
  induction ps generalizing found with
  | nil => exact h
  | cons p ps ih =>
    simp only [loopFound]
    split
    · exact ih _ (nodup_insertKey _ _ h)
    · exact ih _ h

theorem found_subset_keys {ps : List Pattern} {cs : List String} {st : MatcherState}
    (h : MatchInv ps cs st) : ∀ k ∈ st.foundPatterns, k ∈ ps.map Pattern.key := by
  intro k hk
  obtain ⟨p, hp, hkey, _⟩ := (h.2.1 k).mp hk
  exact List.mem_map.mpr ⟨p, hp, hkey⟩

theorem complete_mem {ps : List Pattern} {cs : List String} {st : MatcherState}
    (hnd : (ps.map Pattern.key).Nodup) (h : MatchInv ps cs st)
    (hlen : st.foundPatterns.length = ps.length) :
    ∀ k ∈ ps.map Pattern.key, k ∈ st.foundPatterns := by
  have hsub : st.foundPatterns.toFinset ⊆ (ps.map Pattern.key).toFinset := by
    intro k hk
    rw [List.mem_toFinset] at *
    exact found_subset_keys h k hk
  have hc1 : st.foundPatterns.toFinset.card = st.foundPatterns.length :=
    List.toFinset_card_of_nodup h.1
  have hc2 : (ps.map Pattern.key).toFinset.card = ps.length := by
    rw [List.toFinset_card_of_nodup hnd, List.length_map]
  have heq : st.foundPatterns.toFinset = (ps.map Pattern.key).toFinset :=
    Finset.eq_of_subset_of_card_le hsub (by rw [hc1, hc2, hlen])
  intro k hk
  rw [← List.mem_toFinset, heq, List.mem_toFinset]
  exact hk

theorem matchInv_init (ps : List Pattern) (hne : ps ≠ []) :
    MatchInv ps [] initialMatcherState := by
  refine ⟨List.nodup_nil, by simp [initialMatcherState], ?_⟩
  simp only [initialMatcherState, List.length_nil]
  constructor
  · intro h; cases h
  · intro h
    exact absurd (List.eq_nil_of_length_eq_zero h.symm) hne

theorem matchInv_step {ps : List Pattern} {cs : List String} {st : MatcherState}
    (hnd : (ps.map Pattern.key).Nodup) (h : MatchInv ps cs st) (c : String) :
    MatchInv ps (cs ++ [c]) (feedChunk ps st c).2 := by
  obtain ⟨hnodup, hmem, hflag⟩ := h
  by_cases hf : st.allPatternsFound = true
  · have hstate : (feedChunk ps st c).2 = st := by
      simp [feedChunk, checkPatterns, hf]
    rw [hstate]
    refine ⟨hnodup, ?_, hflag⟩
    intro k
    constructor
    · intro hk
      obtain ⟨p, hp, hkey, c2, hc2, hm⟩ := (hmem k).mp hk
      exact ⟨p, hp, hkey, c2, List.mem_append_left _ hc2, hm⟩
    · rintro ⟨p, hp, hkey, c2, hc2, hm⟩
      exact complete_mem hnd ⟨hnodup, hmem, hflag⟩ (hflag.mp hf) k
        (List.mem_map.mpr ⟨p, hp, hkey⟩)
  · have hf2 : st.allPatternsFound = false := Bool.eq_false_iff.mpr hf
    have hstate : (feedChunk ps st c).2 =
        ⟨loopFound c ps st.foundPatterns,
          (loopFound c ps st.foundPatterns).length == ps.length⟩ := by
      simp only [feedChunk, checkPatterns, hf2, Bool.false_eq_true, if_false,
        runPatternLoop_some, Bool.not_false, Bool.and_true]
      by_cases hl : (loopFound c ps st.foundPatterns).length = ps.length <;>
        simp [hl]
    rw [hstate]
    refine ⟨nodup_loopFound _ _ _ hnodup, ?_, by simp⟩
    intro k
    rw [mem_loopFound]
    constructor
    · rintro (hk | ⟨p, hp, hm, hkey⟩)
      · obtain ⟨p, hp, hkey, c2, hc2, hm⟩ := (hmem k).mp hk
        exact ⟨p, hp, hkey, c2, List.mem_append_left _ hc2, hm⟩
      · exact ⟨p, hp, hkey, c, List.mem_append_right _ (List.mem_singleton_self c), hm⟩
    · rintro ⟨p, hp, hkey, c2, hc2, hm⟩
      rcases List.mem_append.mp hc2 with h1 | h1
      · exact Or.inl ((hmem k).mpr ⟨p, hp, hkey, c2, h1, hm⟩)
      · have : c2 = c := by simpa using h1
        subst this
        exact Or.inr ⟨p, hp, hm, hkey⟩

theorem matchInv_run (ps : List Pattern) (hnd : (ps.map Pattern.key).Nodup)
    (pre : List String) (st : MatcherState) (h : MatchInv ps pre st)
    (cs : List String) : MatchInv ps (pre ++ cs) (feedMany ps st cs).2 := by
  induction cs generalizing pre st with
  | nil => simpa [feedMany] using h
  | cons c cs ih =>
    have h2 := matchInv_step hnd h c
    have h3 := ih (pre ++ [c]) _ h2
    simpa [feedMany, List.append_assoc] using h3

theorem checkPatterns_complete (ps : List Pattern) (st : MatcherState)
    (o : Option String) (h : st.allPatternsFound = true) :
    checkPatterns ps st o = .ok false st := by
  simp [checkPatterns, h]

theorem feedMany_complete (ps : List Pattern) (st : MatcherState)
    (h : st.allPatternsFound = true) (cs : List String) :
    feedMany ps st cs = (List.replicate cs.length false, st) := by
  induction cs with
  | nil => simp [feedMany]
  | cons c cs ih =>
    simp [feedMany, feedChunk, checkPatterns_complete ps st (some c) h, ih,
      List.replicate_succ]

theorem checkPatterns_ret_true {ps : List Pattern} {st st2 : MatcherState}
    {o : Option String} (h : checkPatterns ps st o = .ok true st2) :
    st2.allPatternsFound = true := by
  unfold checkPatterns at h
  split at h
  · simp at h
  · split at h
    · simp at h
    · split at h
      · rw [CheckResult.ok.injEq] at h
        rw [← h.2]
      · simp at h

theorem feedMany_count_true (ps : List Pattern) (st : MatcherState) (cs : List String) :
    ((feedMany ps st cs).1.count true) ≤ 1 := by
  induction cs generalizing st with
  | nil => simp [feedMany]
  | cons c cs ih =>
    simp only [feedMany]
    rcases hr : feedChunk ps st c with ⟨r, st2⟩
    cases r
    · simpa [List.count_cons] using ih st2
    · have hcomp : st2.allPatternsFound = true := by
        unfold feedChunk at hr
        rcases hc : checkPatterns ps st (some c) with ⟨ret, st3⟩ | st3 <;>
          rw [hc] at hr
        · cases hr
          exact checkPatterns_ret_true hc
        · cases hr
      rw [feedMany_complete ps st2 hcomp cs]
      simp [List.count_replicate]

end RunOnOutput

namespace RunOnOutput

/-- C1 counterexample: an undefined child exit status yields supervisor exit
code 0, not 1 as the claim states. -/
theorem C1_counterexample : determineExitCode JSExitVal.undefined = 0 := rfl

/-- C1 (amended): the computed exit code is 0 exactly when the child exited
with status 0 or with an undefined status, and 1 exactly otherwise (any
non-zero numeric status, and the null status of a signal-killed child). -/
theorem C1_exit_code (c : JSExitVal) :
    (determineExitCode c = 0 ↔ (c = JSExitVal.num 0 ∨ c = JSExitVal.undefined)) ∧
    (determineExitCode c = 1 ↔ ¬(c = JSExitVal.num 0 ∨ c = JSExitVal.undefined)) := by
  cases c with
  | num n =>
    by_cases h : n = 0 <;>
      simp [determineExitCode, jsStrictNeqZero, jsIsUndefined, h]
  | null => simp [determineExitCode, jsStrictNeqZero, jsIsUndefined]
  | undefined => simp [determineExitCode, jsStrictNeqZero, jsIsUndefined]

/-- C2 counterexample: with the same literal string configured twice, the
identity keys collide in the found-set, so a chunk satisfying every
configured pattern does not complete the matcher (the found-set size, one,
never reaches the configured pattern count, two). -/
theorem C2_counterexample :
    ([Pattern.str "a", Pattern.str "a"].all fun p => matchesChunk p "a") = true ∧
    (matcherRun [Pattern.str "a", Pattern.str "a"] ["a"]).2.allPatternsFound = false := by
  constructor <;> rfl

/-- C2 (amended): for a non-empty pattern list whose identity keys are
pairwise distinct, the matcher reports completion (as soon as and) exactly
when the union of all chunks seen so far satisfies every configured pattern
at least once, regardless of order or of several patterns being satisfied by
one chunk; with duplicated identity keys completion is never reached. -/
theorem C2_union_completion (ps : List Pattern) (hne : ps ≠ [])
    (hnd : (ps.map Pattern.key).Nodup) (cs : List String) :
    (matcherRun ps cs).2.allPatternsFound = true ↔
      ∀ p ∈ ps, ∃ c ∈ cs, matchesChunk p c = true := by
  have hinv := matchInv_run ps hnd [] initialMatcherState (matchInv_init ps hne) cs
  rw [List.nil_append] at hinv
  obtain ⟨hnodup, hmem, hflag⟩ := hinv
  constructor
  · intro hdone p hp
    have hlen := hflag.mp hdone
    have hk : p.key ∈ (feedMany ps initialMatcherState cs).2.foundPatterns :=
      complete_mem hnd ⟨hnodup, hmem, hflag⟩ hlen _ (List.mem_map.mpr ⟨p, hp, rfl⟩)
    obtain ⟨p2, hp2, hkey, c, hc, hm⟩ := (hmem _).mp hk
    have hpp : p2 = p := List.inj_on_of_nodup_map hnd hp2 hp hkey
    exact ⟨c, hc, hpp ▸ hm⟩
  · intro hall
    apply hflag.mpr
    have hsub1 : ∀ k ∈ ps.map Pattern.key,
        k ∈ (feedMany ps initialMatcherState cs).2.foundPatterns := by
      intro k hk
      obtain ⟨p, hp, rfl⟩ := List.mem_map.mp hk
      obtain ⟨c, hc, hm⟩ := hall p hp
      exact (hmem _).mpr ⟨p, hp, rfl, c, hc, hm⟩
    have hsub2 := found_subset_keys ⟨hnodup, hmem, hflag⟩
    have heq : (feedMany ps initialMatcherState cs).2.foundPatterns.toFinset =
        (ps.map Pattern.key).toFinset := by
      apply Finset.Subset.antisymm <;> intro k hk <;> rw [List.mem_toFinset] at *
      · exact hsub2 k hk
      · exact hsub1 k hk
    have := congrArg Finset.card heq
    rwa [List.toFinset_card_of_nodup hnodup, List.toFinset_card_of_nodup hnd,
      List.length_map] at this

/-- C2 witness: a concrete non-empty, duplicate-free pattern pair, where the
two chunks together satisfy both patterns and the session indeed completes. -/
theorem C2_witness :
    (([Pattern.str "a", Pattern.str "b"] : List Pattern) ≠ []) ∧
    (([Pattern.str "a", Pattern.str "b"].map Pattern.key).Nodup) ∧
    ((matcherRun [Pattern.str "a", Pattern.str "b"] ["xbx", "ya"]).2.allPatternsFound = true ↔
      ∀ p ∈ [Pattern.str "a", Pattern.str "b"], ∃ c ∈ ["xbx", "ya"],
        matchesChunk p c = true) :=
  ⟨by simp, by decide,
    C2_union_completion [Pattern.str "a", Pattern.str "b"] (by simp) (by decide) _⟩

/-- C3: over every session, at most one checkPatterns call returns true, and
from any completed state every further call returns false with the state
(in particular the found-set) unchanged, even on chunks that would
re-satisfy patterns. -/
theorem C3_single_completion (ps : List Pattern) (cs cs2 : List String)
    (st : MatcherState) (h : st.allPatternsFound = true) :
    (matcherRun ps cs).1.count true ≤ 1 ∧
    feedMany ps st cs2 = (List.replicate cs2.length false, st) :=
  ⟨feedMany_count_true ps initialMatcherState cs, feedMany_complete ps st h cs2⟩

/-- C3 witness: a concrete session whose chunks keep re-satisfying the
pattern produces a single true, and a completed matcher state absorbs
further chunks unchanged, returning false each time. -/
theorem C3_witness :
    (matcherRun [Pattern.str "a"] ["a", "a"]).1.count true ≤ 1 ∧
    feedMany [Pattern.str "a"] ⟨["a"], true⟩ ["a", "b"] =
      ([false, false], ⟨["a"], true⟩) :=
  C3_single_completion [Pattern.str "a"] ["a", "a"] ["a", "b"] ⟨["a"], true⟩ rfl

/-- C5 counterexample: a matcher configured with one regex pattern, fed an
undefined chunk before completion, does not raise: RegExp.prototype.test
coerces undefined to the text "undefined" and the call returns false
normally. -/
theorem C5_counterexample :
    checkPatterns [Pattern.regex "x" (fun s => hasSubstr ['x'] s.data)]
      initialMatcherState none = .ok false initialMatcherState := rfl

theorem runPatternLoop_none_throws (v : String) (ps : List Pattern)
    (hv : Pattern.str v ∈ ps) (found0 : List String) :
    ∃ found, runPatternLoop none ps found0 = .threw found := by
  induction ps generalizing found0 with
  | nil => cases hv
  | cons p ps ih =>
    cases p with
    | str w => exact ⟨found0, rfl⟩
    | regex s t =>
      have hv2 : Pattern.str v ∈ ps := by
        rcases List.mem_cons.mp hv with h1 | h1
        · cases h1
        · exact h1
      obtain ⟨found, hf⟩ := ih hv2
        (if t (jsToString none) then insertKey found0 s else found0)
      exact ⟨found, by simp only [runPatternLoop]; exact hf⟩

/-- C5 (amended): calling checkPatterns with an undefined chunk before
completion raises a TypeError whenever the configured list contains at least
one string-literal pattern (the lowercasing of the chunk throws); a matcher
whose patterns are all regexes instead coerces undefined to the text
"undefined" and returns normally. -/
theorem C5_undefined_throws (ps : List Pattern) (st : MatcherState)
    (hst : st.allPatternsFound = false) (hstr : ∃ v, Pattern.str v ∈ ps) :
    ∃ found, checkPatterns ps st none = .threw ⟨found, false⟩ := by
  obtain ⟨v, hv⟩ := hstr
  obtain ⟨found, hf⟩ := runPatternLoop_none_throws v ps hv st.foundPatterns
  refine ⟨found, ?_⟩
  simp [checkPatterns, hst, hf]

/-- C5 witness: the fresh matcher on one concrete string pattern throws on an
undefined chunk. -/
theorem C5_witness :
    initialMatcherState.allPatternsFound = false ∧
    (∃ v, Pattern.str v ∈ [Pattern.str "t"]) ∧
    ∃ found, checkPatterns [Pattern.str "t"] initialMatcherState none =
      .threw ⟨found, false⟩ :=
  ⟨rfl, ⟨"t", by simp⟩,
    C5_undefined_throws [Pattern.str "t"] initialMatcherState rfl ⟨"t", by simp⟩⟩

/-- C6: with an empty configured pattern list the matcher completes at once:
the first checkPatterns call returns true for every input (defined, empty or
undefined), the resulting state reports completion, and every later call on
the completed state returns false, permanently complete. -/
theorem C6_empty_patterns (o o2 : Option String) :
    checkPatterns [] initialMatcherState o = .ok true ⟨[], true⟩ ∧
    (MatcherState.mk [] true).allPatternsFound = true ∧
    checkPatterns [] ⟨[], true⟩ o2 = .ok false ⟨[], true⟩ :=
  ⟨rfl, rfl, rfl⟩

theorem executeCommand_shape (cmd : String) (args : List String) (cap : Bool)
    (outcome : SpawnOutcome) :
    (∃ req out err, executeCommand cmd args cap outcome = (req, .ok (out, err), [])) ∨
    (∃ req msg lg, executeCommand cmd args cap outcome = (req, .error msg, lg)) := by
  cases outcome with
  | spawnError m => exact Or.inr ⟨_, _, _, rfl⟩
  | exited c o e =>
    by_cases hc : c = .num 0
    · subst hc
      exact Or.inl ⟨_, _, _, rfl⟩
    · refine Or.inr ⟨⟨(cmd.splitOn " ").headD "", (cmd.splitOn " ").tail ++ args, true, cap⟩,
        "Command failed: exit code " ++ jsExitValToString c,
        (if cap then ["Command failed: exit code " ++ jsExitValToString c] else []), ?_⟩
      simp only [executeCommand]
      rw [if_neg hc]

theorem executeCommand_fails (cmd : String) (args : List String) (cap : Bool)
    (outcome : SpawnOutcome) (h : spawnFails outcome = true) :
    ∃ req msg lg, executeCommand cmd args cap outcome = (req, .error msg, lg) := by
  cases outcome with
  | spawnError m => exact ⟨_, _, _, rfl⟩
  | exited c o e =>
    have hc : ¬(c = .num 0) := by simpa [spawnFails] using h
    refine ⟨⟨(cmd.splitOn " ").headD "", (cmd.splitOn " ").tail ++ args, true, cap⟩,
      "Command failed: exit code " ++ jsExitValToString c,
      (if cap then ["Command failed: exit code " ++ jsExitValToString c] else []), ?_⟩
    simp only [executeCommand]
    rw [if_neg hc]

theorem append_ne_empty_of_ne (x m : String) (hm : m ≠ "") : x ++ m ≠ "" := by
  intro h
  apply hm
  have h2 := congrArg String.data h
  rw [String.data_append] at h2
  have h3 : m.data = [] := (List.append_eq_nil.mp h2).2
  exact String.ext h3

/-- C4: on a spawn failure the supervisor exits with code 1 and flushes the
(primary) buffered output and error, but the inability-to-start message is
appended to the action-error buffer, which this path never writes: with no
prior output, nothing at all is written to the real error stream, so no
error mentioning the failure is emitted, contrary to spec and to the
intent of the append on the line before the flush. -/
theorem C4_spawn_failure_drops_message :
    handleChildProcessError "spawn nosuchcmd ENOENT" emptyBuffers =
      ⟨⟨"", "", "", "Failed to start command: spawn nosuchcmd ENOENT\n"⟩,
        [], [], "", "", 1⟩ := by
  decide

/-- C8: executeCommand resolves with the captured output exactly when the
child exited with status 0; a non-zero numeric exit rejects with a message
naming that exact code, and a spawn failure rejects with the spawn error
message; one spawn attempt is made per call. -/
theorem C8_execute_command (cmd : String) (args : List String) (cap : Bool)
    (outcome : SpawnOutcome) (out err : String) :
    ((executeCommand cmd args cap outcome).2.1 = .ok (out, err) ↔
      outcome = .exited (.num 0) out err) ∧
    (∀ n : Int, n ≠ 0 → outcome = .exited (.num n) out err →
      (executeCommand cmd args cap outcome).2.1 =
        .error ("Command failed: exit code " ++ toString n)) ∧
    (∀ m, outcome = .spawnError m →
      (executeCommand cmd args cap outcome).2.1 = .error m) := by
  refine ⟨?_, ?_, ?_⟩
  · cases outcome with
    | spawnError m => simp [executeCommand]
    | exited c o e =>
      by_cases hc : c = .num 0
      · subst hc
        simp [executeCommand]
      · simp [executeCommand, hc]
  · intro n hn hout
    subst hout
    have hc : ¬(JSExitVal.num n = JSExitVal.num 0) := by simp [hn]
    simp [executeCommand, hc, jsExitValToString]
  · intro m hout
    subst hout
    simp [executeCommand]

theorem messageStep_parts (mO : Option String) (b : Buffers) :
    (messageStep mO b).2.1 = [] ∧
    (messageStep mO b).2.2 = (if mO.isSome then [ActionTag.message] else []) := by
  cases mO <;> simp [messageStep]

theorem runCommandStep_acts (rcO : Option String) (oc : SpawnOutcome) (b : Buffers) :
    (runCommandStep rcO oc b).2.2 = (if rcO.isSome then [ActionTag.runCmd] else []) := by
  cases rcO with
  | none => rfl
  | some rc =>
    rcases executeCommand_shape rc [] true oc with ⟨req, o2, e2, hE⟩ | ⟨req, m2, lg2, hE⟩ <;>
      simp [runCommandStep, hE]

theorem npmScriptStep_acts (scO : Option String) (oc : SpawnOutcome) (b : Buffers) :
    (npmScriptStep scO oc b).2.2 = (if scO.isSome then [ActionTag.npmScript] else []) := by
  cases scO with
  | none => rfl
  | some sc =>
    rcases executeCommand_shape ("npm run -s " ++ sc) [] true oc with
      ⟨req, o2, e2, hE⟩ | ⟨req, m2, lg2, hE⟩ <;>
      simp [npmScriptStep, hE]

theorem runCommandStep_fail_log (rc : String) (oc : SpawnOutcome) (b : Buffers)
    (h : spawnFails oc = true) :
    ∃ s lg, (runCommandStep (some rc) oc b).2.1 =
      lg ++ ["Failed to execute run command: " ++ s] := by
  obtain ⟨req, msg, lg, hE⟩ := executeCommand_fails rc [] true oc h
  exact ⟨msg, lg, by simp [runCommandStep, hE]⟩

theorem npmScriptStep_fail_log (sc : String) (oc : SpawnOutcome) (b : Buffers)
    (h : spawnFails oc = true) :
    ∃ s lg, (npmScriptStep (some sc) oc b).2.1 =
      lg ++ ["Failed to execute npm script: " ++ s] := by
  obtain ⟨req, msg, lg, hE⟩ := executeCommand_fails ("npm run -s " ++ sc) [] true oc h
  exact ⟨msg, lg, by simp [npmScriptStep, hE]⟩

/-- C9: the configured actions always run in the fixed order message, run
command, npm script; a failing auxiliary command or npm script is logged
with a Failed-to-execute line but never removes a later action from the
sequence, and the exit code computed by the exit handler is still exactly
the one determined by the child status (0 when the child exited 0). -/
theorem C9_action_order_and_isolation (cfg : Config)
    (runOutcome npmOutcome : SpawnOutcome) (b : Buffers) (code : JSExitVal) :
    ((executeActions cfg runOutcome npmOutcome b).2.2 =
      (if cfg.message.isSome then [ActionTag.message] else []) ++
      (if cfg.runCommand.isSome then [ActionTag.runCmd] else []) ++
      (if cfg.npmScript.isSome then [ActionTag.npmScript] else [])) ∧
    (∀ rc, cfg.runCommand = some rc → spawnFails runOutcome = true →
      ∃ s, ("Failed to execute run command: " ++ s) ∈
        (executeActions cfg runOutcome npmOutcome b).2.1) ∧
    (∀ sc, cfg.npmScript = some sc → spawnFails npmOutcome = true →
      ∃ s, ("Failed to execute npm script: " ++ s) ∈
        (executeActions cfg runOutcome npmOutcome b).2.1) ∧
    ((runExitHandler cfg true runOutcome npmOutcome code b).exitCode =
      determineExitCode code) ∧
    (code = .num 0 →
      (runExitHandler cfg true runOutcome npmOutcome code b).exitCode = 0) := by
  refine ⟨?_, ?_, ?_, rfl, ?_⟩
  · simp only [executeActions]
    rw [(messageStep_parts cfg.message b).2, runCommandStep_acts, npmScriptStep_acts]
  · intro rc hrc hfail
    obtain ⟨s, lg, hlog⟩ :=
      runCommandStep_fail_log rc runOutcome (messageStep cfg.message b).1 hfail
    refine ⟨s, ?_⟩
    simp only [executeActions, hrc]
    rw [hlog]
    simp
  · intro sc hsc hfail
    obtain ⟨s, lg, hlog⟩ := npmScriptStep_fail_log sc npmOutcome
      (runCommandStep cfg.runCommand runOutcome (messageStep cfg.message b).1).1 hfail
    refine ⟨s, ?_⟩
    simp only [executeActions, hsc]
    rw [hlog]
    simp
  · intro h
    subst h
    rfl

/-- C9 witness: a concrete configuration with all three actions, where the
run command exits with status 3 and the npm script cannot spawn: both
failures are logged and the exit code is still 0 for a child that exited 0. -/
theorem C9_witness :
    (∃ s, ("Failed to execute run command: " ++ s) ∈
      (executeActions ⟨some "done", some "fail-cmd", some "scr"⟩
        (.exited (.num 3) "" "boom") (.spawnError "nope") emptyBuffers).2.1) ∧
    (∃ s, ("Failed to execute npm script: " ++ s) ∈
      (executeActions ⟨some "done", some "fail-cmd", some "scr"⟩
        (.exited (.num 3) "" "boom") (.spawnError "nope") emptyBuffers).2.1) ∧
    (runExitHandler ⟨some "done", some "fail-cmd", some "scr"⟩ true
      (.exited (.num 3) "" "boom") (.spawnError "nope") (.num 0)
      emptyBuffers).exitCode = 0 :=
  let T := C9_action_order_and_isolation ⟨some "done", some "fail-cmd", some "scr"⟩
    (.exited (.num 3) "" "boom") (.spawnError "nope") emptyBuffers (.num 0)
  ⟨T.2.1 "fail-cmd" rfl (by decide), T.2.2.1 "scr" rfl (by decide),
    T.2.2.2.2 rfl⟩

/-- C10: the exit handler appends the text Failed to start command: Command
not found to the action-error buffer exactly when the successfully spawned
child exited with status 1 or 127 (the guard is equivalent to that
disjunction, so no other status produces the message), and in that case the
whole action-error buffer, message included, is flushed to the real error
stream and the process exits with code 1. -/
theorem C10_command_not_found (cfg : Config) (found : Bool)
    (runOutcome npmOutcome : SpawnOutcome) (code : JSExitVal) (b : Buffers) :
    (commandNotFoundGuard code = true ↔
      (code = JSExitVal.num 1 ∨ code = JSExitVal.num 127)) ∧
    ((runExitHandler cfg found runOutcome npmOutcome code b).buffers.actionErrorBuffer =
      (if found then executeActions cfg runOutcome npmOutcome b
        else (b, [], [])).1.actionErrorBuffer ++
        (if commandNotFoundGuard code then
          "Failed to start command: Command not found\n" else "")) ∧
    ((code = JSExitVal.num 1 ∨ code = JSExitVal.num 127) →
      (runExitHandler cfg found runOutcome npmOutcome code b).exitCode = 1 ∧
      (runExitHandler cfg found runOutcome npmOutcome code b).stderrWritten =
        (runExitHandler cfg found runOutcome npmOutcome code b).buffers.actionErrorBuffer ∧
      (runExitHandler cfg found runOutcome npmOutcome code b).buffers.actionErrorBuffer ≠
        "") := by
  have hguard : commandNotFoundGuard code = true ↔
      (code = JSExitVal.num 1 ∨ code = JSExitVal.num 127) := by
    cases code with
    | num n =>
      by_cases h1 : n = 1
      · subst h1; decide
      · by_cases h127 : n = 127
        · subst h127; decide
        · simp [commandNotFoundGuard, jsStrictNeqZero, jsIsUndefined, h1, h127]
    | null => decide
    | undefined => decide
  have happ : (runExitHandler cfg found runOutcome npmOutcome code b).buffers.actionErrorBuffer =
      (if found then executeActions cfg runOutcome npmOutcome b
        else (b, [], [])).1.actionErrorBuffer ++
        (if commandNotFoundGuard code then
          "Failed to start command: Command not found\n" else "") := by
    cases hg : commandNotFoundGuard code with
    | false => simp [runExitHandler, hg]
    | true => simp [runExitHandler, hg, addToError]
  refine ⟨hguard, happ, ?_⟩
  intro h
  have hg : commandNotFoundGuard code = true := hguard.mpr h
  have hne : (runExitHandler cfg found runOutcome npmOutcome code b).buffers.actionErrorBuffer ≠
      "" := by
    rw [happ, hg, if_pos rfl]
    exact append_ne_empty_of_ne _ _ (by decide)
  have hec : determineExitCode code = 1 := by
    rcases h with rfl | rfl <;> decide
  refine ⟨hec, ?_, hne⟩
  show (if (runExitHandler cfg found runOutcome npmOutcome code b).buffers.actionErrorBuffer ≠ ""
    then (runExitHandler cfg found runOutcome npmOutcome code b).buffers.actionErrorBuffer
    else "") = _
  rw [if_pos hne]

/-- C10 witness: a child that exits with status 127 (and completion never
raised): the not-found message is flushed to stderr and the exit code is 1. -/
theorem C10_witness :
    (runExitHandler ⟨none, none, none⟩ false (.spawnError "x") (.spawnError "x")
      (.num 127) emptyBuffers).exitCode = 1 ∧
    (runExitHandler ⟨none, none, none⟩ false (.spawnError "x") (.spawnError "x")
      (.num 127) emptyBuffers).stderrWritten =
      (runExitHandler ⟨none, none, none⟩ false (.spawnError "x") (.spawnError "x")
        (.num 127) emptyBuffers).buffers.actionErrorBuffer ∧
    (runExitHandler ⟨none, none, none⟩ false (.spawnError "x") (.spawnError "x")
      (.num 127) emptyBuffers).buffers.actionErrorBuffer ≠ "" :=
  (C10_command_not_found ⟨none, none, none⟩ false (.spawnError "x") (.spawnError "x")
    (.num 127) emptyBuffers).2.2 (Or.inr rfl)

/-- C8 witness: a concrete run that exits with status 2 rejects with the
message naming exit code 2. -/
theorem C8_witness :
    (executeCommand "mycmd --flag" [] true
      (.exited (.num 2) "captured out" "captured err")).2.1 =
      .error ("Command failed: exit code " ++ toString (2 : Int)) :=
  (C8_execute_command "mycmd --flag" [] true
    (.exited (.num 2) "captured out" "captured err") "captured out" "captured err").2.1
    2 (by decide) rfl

theorem escapeChars_head_ne (l : List Char) : (escapeChars l).head? ≠ some '[' := by
  cases l with
  | nil => simp [escapeChars]
  | cons a rest =>
    simp only [escapeChars]
    by_cases ha : isRegexMeta a = true
    · rw [if_pos ha]
      simp
    · rw [if_neg ha]
      simp only [List.head?_cons, ne_eq, Option.some.injEq]
      intro hac
      apply ha
      rw [hac]
      decide

/-- C7: for every regex engine that accepts all fully-escaped sources (as
the JavaScript engine does), construction never hard-fails: every source the
engine rejects is downgraded to a compiled case-insensitive regex over the
metacharacter-escaped source text, and exactly the rejected sources surface
a warning, in order; accepted sources compile as themselves. -/
theorem C7_invalid_regex_fallback (compile : String → Option (String → Bool))
    (hcompile : ∀ s, (compile (escapeRegex s)).isSome = true) (sources : List String) :
    ∃ ps, buildRegexPatterns compile sources =
        .ok (ps, (sources.filter (fun p => (compile p).isNone)).map warnMsg) ∧
      List.Forall₂ (fun src pat =>
        ((compile src).isNone →
          ∃ t2, compile (escapeRegex src) = some t2 ∧
            pat = Pattern.regex (escapeRegex src) t2) ∧
        (∀ t, compile src = some t → pat = Pattern.regex src t)) sources ps := by
  induction sources with
  | nil => exact ⟨[], rfl, List.Forall₂.nil⟩
  | cons p rest ih =>
    obtain ⟨ps, hbuild, hfa⟩ := ih
    cases hc : compile p with
    | some t =>
      refine ⟨Pattern.regex p t :: ps, ?_, ?_⟩
      · simp only [buildRegexPatterns, hc, hbuild]
        simp [List.filter_cons, hc]
      · exact List.Forall₂.cons
          ⟨fun hn => by simp [hc] at hn,
           fun t2 ht2 => by rw [hc] at ht2; cases ht2; rfl⟩ hfa
    | none =>
      have h2 := hcompile p
      cases hc2 : compile (escapeRegex p) with
      | none => rw [hc2] at h2; simp at h2
      | some t2 =>
        refine ⟨Pattern.regex (escapeRegex p) t2 :: ps, ?_, ?_⟩
        · simp only [buildRegexPatterns, hc, hc2, hbuild]
          simp [List.filter_cons, hc]
        · exact List.Forall₂.cons
            ⟨fun _ => ⟨t2, hc2, rfl⟩,
             fun t ht => by rw [hc] at ht; cases ht⟩ hfa

/-- C7 witness: the sample engine rejects the source consisting of an
unclosed bracket; since escaping always puts a backslash first, it accepts
every escaped source, and the construction run on a rejected and an
accepted source succeeds with the fallback and one warning. -/
theorem C7_witness :
    (∀ s, (badCompile (escapeRegex s)).isSome = true) ∧
    ∃ ps, buildRegexPatterns badCompile ["[", "ok"] =
        .ok (ps, (["[", "ok"].filter (fun p => (badCompile p).isNone)).map warnMsg) ∧
      List.Forall₂ (fun src pat =>
        ((badCompile src).isNone →
          ∃ t2, badCompile (escapeRegex src) = some t2 ∧
            pat = Pattern.regex (escapeRegex src) t2) ∧
        (∀ t, badCompile src = some t → pat = Pattern.regex src t)) ["[", "ok"] ps := by
  have hcomp : ∀ s, (badCompile (escapeRegex s)).isSome = true := by
    intro s
    have hh := escapeChars_head_ne s.data
    simp only [badCompile, escapeRegex]
    rw [if_neg hh]
    rfl
  exact ⟨hcomp, C7_invalid_regex_fallback badCompile hcomp ["[", "ok"]⟩

end RunOnOutput
